import Mathlib

/-!
Verification of the tafcha-cli ephemeral content store.

Shallow embedding of the Go sources:
* `internal/expiry/parser.go` — duration parsing/formatting (`Parse`, `Format`, `Validate`);
  Go `time.Duration` is an `int64` count of nanoseconds, embedded as `Int` together with
  explicit two's-complement wrapping where the Go multiplication may overflow.
* `internal/id` — identifier shape validation (`IsValid`) and the allocator model.
* `internal/storage/postgres.go` — the snippet table (`storeGet`, `storeCreate`).
* `internal/api` — the HTTP handlers (`handleGet`, `handleCreate`), error responses,
  and the cleanup worker loop.
-/

deriving instance DecidableEq for Except

namespace Tafcha

/-! ## Machine-integer model: Go int64 arithmetic -/

/-- Largest value of a Go `int64` (`time.Duration` is an `int64` nanosecond count). -/
def i64Max : Int := 9223372036854775807

/-- Two's-complement wrap-around of Go `int64` multiplication results. -/
def int64wrap (n : Int) : Int :=
  (n + 9223372036854775808) % 18446744073709551616 - 9223372036854775808

theorem int64wrap_eq_self {p : Int} (h0 : 0 ≤ p) (h1 : p ≤ i64Max) : int64wrap p = p := by
  have hmax : p ≤ 9223372036854775807 := h1
  have hm : (p + 9223372036854775808) % 18446744073709551616 = p + 9223372036854775808 :=
    Int.emod_eq_of_lt (by omega) (by omega)
  simp only [int64wrap, hm]
  omega

/-! ## Duration constants, from `time` package: nanosecond counts -/

/-- `time.Minute` in nanoseconds. -/
def minuteNs : Int := 60000000000

/-- `time.Hour` in nanoseconds. -/
def hourNs : Int := 3600000000000

/-- `24 * time.Hour` in nanoseconds. -/
def dayNs : Int := 86400000000000

/-- `7 * 24 * time.Hour` in nanoseconds. -/
def weekNs : Int := 604800000000000

/-! ## Decimal digits: rendering and reading

`digitsToNat` embeds the numeric part of `strconv.Atoi` on all-digit strings;
`natToDigits` embeds `fmt.Sprintf`'s `%d` rendering of a non-negative value.
-/

/-- ASCII decimal digit test, as matched by `\d` in the Go regexp `^(\d+)([mhdw])$`. -/
def isDigitChar (c : Char) : Bool := decide ('0' ≤ c) && decide (c ≤ '9')

/-- Numeric value of an ASCII digit character. -/
def digitVal (c : Char) : Nat := c.toNat - '0'.toNat

/-- Value of a most-significant-first digit string (the accumulation loop of `strconv.Atoi`). -/
def digitsToNat (cs : List Char) : Nat := cs.foldl (fun a c => a * 10 + digitVal c) 0

/-- The ASCII character for one decimal digit. -/
def digitChar (d : Nat) : Char :=
  match d with
  | 0 => '0'
  | 1 => '1'
  | 2 => '2'
  | 3 => '3'
  | 4 => '4'
  | 5 => '5'
  | 6 => '6'
  | 7 => '7'
  | 8 => '8'
  | 9 => '9'
  | _ => '*'

/-- Decimal rendering worker; the first argument is recursion fuel and any
fuel exceeding the value being rendered yields the exact decimal digit string. -/
def natToDigitsAux : Nat → Nat → List Char → List Char
  | 0, _, acc => acc
  | fuel + 1, n, acc =>
    if n < 10 then digitChar n :: acc
    else natToDigitsAux fuel (n / 10) (digitChar (n % 10) :: acc)

/-- Most-significant-first decimal digit string of a natural number
(the `%d` rendering used by `Format`). -/
def natToDigits (n : Nat) : List Char := natToDigitsAux (n + 1) n []

/-- `%d` rendering of a signed value: a possibly `-`-prefixed digit string. -/
def intToDigits (i : Int) : List Char :=
  if i < 0 then '-' :: natToDigits (-i).toNat else natToDigits i.toNat

theorem digitVal_digitChar {d : Nat} (h : d < 10) : digitVal (digitChar d) = d := by
  interval_cases d <;> rfl

theorem isDigitChar_digitChar {d : Nat} (h : d < 10) : isDigitChar (digitChar d) = true := by
  interval_cases d <;> rfl

theorem natToDigitsAux_append (fuel n : Nat) (acc : List Char) :
    natToDigitsAux fuel n acc = natToDigitsAux fuel n [] ++ acc := by
  induction fuel generalizing n acc with
  | zero => rfl
  | succ fuel ih =>
    by_cases h : n < 10
    · simp [natToDigitsAux, h]
    · rw [natToDigitsAux, if_neg h, natToDigitsAux, if_neg h,
        ih (n / 10) (digitChar (n % 10) :: acc), ih (n / 10) [digitChar (n % 10)]]
      simp

theorem digitsToNat_concat (cs : List Char) (c : Char) :
    digitsToNat (cs ++ [c]) = digitsToNat cs * 10 + digitVal c := by
  simp [digitsToNat, List.foldl_append]

theorem natToDigitsAux_spec (fuel : Nat) :
    ∀ n : Nat, n < fuel →
      digitsToNat (natToDigitsAux fuel n []) = n ∧
      (natToDigitsAux fuel n []).all isDigitChar = true ∧
      natToDigitsAux fuel n [] ≠ [] := by
  induction fuel with
  | zero => intro n h; omega
  | succ fuel ih =>
    intro n hn
    by_cases h : n < 10
    · refine ⟨?_, ?_, ?_⟩
      · simp [natToDigitsAux, h, digitsToNat, digitVal_digitChar h]
      · simp [natToDigitsAux, h, isDigitChar_digitChar h]
      · simp [natToDigitsAux, h]
    · have hdivlt : n / 10 < fuel := by
        have h1 : n / 10 < n := Nat.div_lt_self (by omega) (by omega)
        omega
      obtain ⟨ihv, iha, ihn⟩ := ih (n / 10) hdivlt
      rw [natToDigitsAux, if_neg h, natToDigitsAux_append]
      refine ⟨?_, ?_, by simp⟩
      · rw [digitsToNat_concat, ihv, digitVal_digitChar (Nat.mod_lt n (by omega))]
        omega
      · simp only [List.all_append, iha, Bool.true_and, List.all_cons, List.all_nil,
          Bool.and_true]
        exact isDigitChar_digitChar (Nat.mod_lt n (by omega))

theorem digitsToNat_natToDigits (n : Nat) : digitsToNat (natToDigits n) = n :=
  (natToDigitsAux_spec (n + 1) n (Nat.lt_succ_self n)).1

theorem natToDigits_all_digits (n : Nat) : (natToDigits n).all isDigitChar = true :=
  (natToDigitsAux_spec (n + 1) n (Nat.lt_succ_self n)).2.1

theorem natToDigits_ne_nil (n : Nat) : natToDigits n ≠ [] :=
  (natToDigitsAux_spec (n + 1) n (Nat.lt_succ_self n)).2.2

/-! ## `internal/expiry/parser.go` -/

/-- Unit letter test of the regexp character class `[mhdw]`. -/
def isUnitChar (c : Char) : Bool := c == 'm' || c == 'h' || c == 'd' || c == 'w'

/-- The match of the anchored Go regexp `^(\d+)([mhdw])$`: on success, the
captured digit group and unit letter (`FindStringSubmatch` groups 1 and 2). -/
def matchDuration (cs : List Char) : Option (List Char × Char) :=
  match cs.getLast? with
  | none => none
  | some u =>
    if isUnitChar u && !cs.dropLast.isEmpty && cs.dropLast.all isDigitChar then
      some (cs.dropLast, u)
    else none

/-- `strconv.Atoi` on the nonempty all-digit strings produced by the duration
regexp: the decimal value, or a range error when it exceeds `int64`. -/
def atoi (ds : List Char) : Except String Int :=
  if (digitsToNat ds : Int) > i64Max then .error "value out of range"
  else .ok (digitsToNat ds : Int)

/-- The `unitMultipliers` map of `parser.go`. -/
def unitMultipliers (c : Char) : Option Int :=
  if c == 'm' then some minuteNs
  else if c == 'h' then some hourNs
  else if c == 'd' then some dayNs
  else if c == 'w' then some weekNs
  else none

/-- `expiry.Parse`: empty check, regexp match, `Atoi`, positivity check, and the
`time.Duration(value) * multiplier` product with `int64` wrap-around. -/
def Parse (s : String) : Except String Int :=
  if s.data.isEmpty then .error "empty duration string"
  else
    match matchDuration s.data with
    | none => .error "invalid duration format"
    | some (ds, u) =>
      match atoi ds with
      | .error e => .error ("invalid duration value: " ++ e)
      | .ok value =>
        if value ≤ 0 then .error "duration value must be positive"
        else
          match unitMultipliers u with
          | none => .error "unknown duration unit"
          | some mult => .ok (int64wrap (value * mult))

/-- `expiry.Validate`: rejects durations strictly below the minimum or strictly
above the maximum. -/
def Validate (d lo hi : Int) : Except String Unit :=
  if d < lo then .error "duration is less than minimum"
  else if d > hi then .error "duration exceeds maximum"
  else .ok ()

/-- `expiry.Format`: the largest unit that divides the duration evenly, falling
back to truncated minutes; `Int.tdiv`/`Int.tmod` are Go's `/` and `%` on `int64`. -/
def Format (d : Int) : String :=
  if weekNs ≤ d ∧ Int.tmod d weekNs = 0 then
    String.mk (intToDigits (Int.tdiv d weekNs) ++ ['w'])
  else if dayNs ≤ d ∧ Int.tmod d dayNs = 0 then
    String.mk (intToDigits (Int.tdiv d dayNs) ++ ['d'])
  else if hourNs ≤ d ∧ Int.tmod d hourNs = 0 then
    String.mk (intToDigits (Int.tdiv d hourNs) ++ ['h'])
  else
    String.mk (intToDigits (Int.tdiv d minuteNs) ++ ['m'])

theorem isUnitChar_of_mult {u : Char} {mult : Int} (h : unitMultipliers u = some mult) :
    isUnitChar u = true := by
  unfold unitMultipliers at h
  unfold isUnitChar
  split_ifs at h <;> simp_all

theorem mult_pos {u : Char} {mult : Int} (h : unitMultipliers u = some mult) :
    minuteNs ≤ mult := by
  unfold unitMultipliers at h
  split_ifs at h <;> simp_all [minuteNs, hourNs, dayNs, weekNs] <;> omega

theorem minuteNs_dvd_mult {u : Char} {mult : Int} (h : unitMultipliers u = some mult) :
    minuteNs ∣ mult := by
  unfold unitMultipliers at h
  split_ifs at h <;> simp_all [minuteNs, hourNs, dayNs, weekNs] <;> omega

/-- Evaluation of `Parse` on a string assembled from a digit group and a unit
letter, before any overflow consideration. -/
theorem parse_digits_unit {n : Nat} {u : Char} {mult : Int}
    (hu : unitMultipliers u = some mult) (hn : 1 ≤ n) (hle : (n : Int) ≤ i64Max) :
    Parse (String.mk (natToDigits n ++ [u])) = .ok (int64wrap ((n : Int) * mult)) := by
  have hne : natToDigits n ≠ [] := natToDigits_ne_nil n
  have hmatch : matchDuration (natToDigits n ++ [u]) = some (natToDigits n, u) := by
    simp only [matchDuration, List.getLast?_concat, List.dropLast_concat]
    simp [isUnitChar_of_mult hu, natToDigits_all_digits n, hne]
  have hatoi : atoi (natToDigits n) = .ok (n : Int) := by
    simp only [atoi, digitsToNat_natToDigits]
    rw [if_neg (by omega)]
  have hpos : ¬ ((n : Int) ≤ 0) := by omega
  simp only [Parse, hmatch, hatoi, hu]
  rw [if_neg (by simp), if_neg hpos]

/-- A duration string beginning with a minus sign fails the regexp match. -/
theorem parse_neg_format (ds : List Char) (u : Char) :
    Parse (String.mk (('-' :: ds) ++ [u])) = .error "invalid duration format" := by
  have hmatch : matchDuration (('-' :: ds) ++ [u]) = none := by
    simp only [matchDuration, List.getLast?_concat, List.dropLast_concat]
    have : ((('-')) :: ds).all isDigitChar = false := by
      simp [isDigitChar]
    simp [this]
  simp only [Parse, hmatch]
  rw [if_neg (by simp)]

theorem parse_zero_minutes :
    Parse (String.mk (natToDigits 0 ++ ['m'])) = .error "duration value must be positive" := by
  decide

/-- `Parse` recovers `d` exactly from the string `Format` builds for the
quotient of `d` by an exactly dividing unit. -/
theorem format_branch_parse {d mult : Int} {u : Char}
    (hu : unitMultipliers u = some mult) (hdvd : mult ∣ d) (hge : mult ≤ d)
    (hmax : d ≤ i64Max) :
    Parse (String.mk (intToDigits (Int.tdiv d mult) ++ [u])) = .ok d := by
  have hmpos : 0 < mult := lt_of_lt_of_le (by norm_num [minuteNs]) (mult_pos hu)
  have hd0 : 0 < d := lt_of_lt_of_le hmpos hge
  have htd : Int.tdiv d mult = d / mult := Int.tdiv_eq_ediv (le_of_lt hd0) (le_of_lt hmpos)
  have hq1 : 1 ≤ d / mult := by
    rw [Int.le_ediv_iff_mul_le hmpos]
    simpa using hge
  have hqmul : d / mult * mult = d := Int.ediv_mul_cancel hdvd
  have hqle : d / mult ≤ i64Max := le_trans (Int.ediv_le_self mult (le_of_lt hd0)) hmax
  have hqnn : 0 ≤ d / mult := by omega
  have hchars : intToDigits (Int.tdiv d mult) = natToDigits (d / mult).toNat := by
    rw [htd, intToDigits, if_neg (by omega)]
  rw [hchars, parse_digits_unit hu (by omega) (by rw [Int.toNat_of_nonneg hqnn]; exact hqle)]
  rw [Int.toNat_of_nonneg hqnn, hqmul, int64wrap_eq_self (le_of_lt hd0) hmax]

theorem minuteNs_dvd_weekNs : minuteNs ∣ weekNs := ⟨10080, by norm_num [minuteNs, weekNs]⟩

theorem minuteNs_dvd_dayNs : minuteNs ∣ dayNs := ⟨1440, by norm_num [minuteNs, dayNs]⟩

theorem minuteNs_dvd_hourNs : minuteNs ∣ hourNs := ⟨60, by norm_num [minuteNs, hourNs]⟩

/-- Round trip for any positive whole number of minutes within `int64`. -/
theorem format_parse_of_minute_dvd {d : Int} (h0 : 0 < d) (hmax : d ≤ i64Max)
    (hdvd : minuteNs ∣ d) : Parse (Format d) = .ok d := by
  have hnn : (0 : Int) ≤ d := le_of_lt h0
  unfold Format
  split_ifs with hw hd hh
  · exact format_branch_parse (by decide)
      (Int.dvd_of_emod_eq_zero (by rw [← Int.tmod_eq_emod hnn (by norm_num [weekNs])]; exact hw.2))
      hw.1 hmax
  · exact format_branch_parse (by decide)
      (Int.dvd_of_emod_eq_zero (by rw [← Int.tmod_eq_emod hnn (by norm_num [dayNs])]; exact hd.2))
      hd.1 hmax
  · exact format_branch_parse (by decide)
      (Int.dvd_of_emod_eq_zero (by rw [← Int.tmod_eq_emod hnn (by norm_num [hourNs])]; exact hh.2))
      hh.1 hmax
  · exact format_branch_parse (by decide) hdvd (Int.le_of_dvd h0 hdvd) hmax

/-- Inversion: whatever value `Parse` reads back from a `Format` output of an
`int64` duration is a positive whole number of minutes within `int64`. -/
theorem parse_format_inv {d0 d : Int} (hhi : d0 ≤ i64Max)
    (h : Parse (Format d0) = .ok d) : 0 < d ∧ d ≤ i64Max ∧ minuteNs ∣ d := by
  unfold Format at h
  split_ifs at h with hw hd hh
  · have hdvd : weekNs ∣ d0 := Int.dvd_of_emod_eq_zero
      (by rw [← Int.tmod_eq_emod (by linarith [hw.1, show (0:Int) < weekNs by norm_num [weekNs]])
        (by norm_num [weekNs])]; exact hw.2)
    rw [@format_branch_parse d0 weekNs 'w' (by decide) hdvd hw.1 hhi] at h
    obtain rfl : d0 = d := by injection h
    exact ⟨by linarith [hw.1, show (0:Int) < weekNs by norm_num [weekNs]], hhi,
      dvd_trans minuteNs_dvd_weekNs hdvd⟩
  · have hdvd : dayNs ∣ d0 := Int.dvd_of_emod_eq_zero
      (by rw [← Int.tmod_eq_emod (by linarith [hd.1, show (0:Int) < dayNs by norm_num [dayNs]])
        (by norm_num [dayNs])]; exact hd.2)
    rw [@format_branch_parse d0 dayNs 'd' (by decide) hdvd hd.1 hhi] at h
    obtain rfl : d0 = d := by injection h
    exact ⟨by linarith [hd.1, show (0:Int) < dayNs by norm_num [dayNs]], hhi,
      dvd_trans minuteNs_dvd_dayNs hdvd⟩
  · have hdvd : hourNs ∣ d0 := Int.dvd_of_emod_eq_zero
      (by rw [← Int.tmod_eq_emod (by linarith [hh.1, show (0:Int) < hourNs by norm_num [hourNs]])
        (by norm_num [hourNs])]; exact hh.2)
    rw [@format_branch_parse d0 hourNs 'h' (by decide) hdvd hh.1 hhi] at h
    obtain rfl : d0 = d := by injection h
    exact ⟨by linarith [hh.1, show (0:Int) < hourNs by norm_num [hourNs]], hhi,
      dvd_trans minuteNs_dvd_hourNs hdvd⟩
  · rcases lt_trichotomy (Int.tdiv d0 minuteNs) 0 with hqneg | hqzero | hqpos
    · exfalso
      have hrepr : intToDigits (Int.tdiv d0 minuteNs) =
          '-' :: natToDigits (-(Int.tdiv d0 minuteNs)).toNat := by
        rw [intToDigits, if_pos hqneg]
      rw [hrepr, parse_neg_format] at h
      exact Except.noConfusion h
    · exfalso
      have hrepr : intToDigits (Int.tdiv d0 minuteNs) = natToDigits 0 := by
        rw [intToDigits, if_neg (by omega), hqzero]
        rfl
      rw [hrepr, parse_zero_minutes] at h
      exact Except.noConfusion h
    · have hq1 : 1 ≤ Int.tdiv d0 minuteNs := hqpos
      have hd0nn : (0 : Int) ≤ d0 := by
        by_contra hneg
        push_neg at hneg
        have h2 : 0 ≤ Int.tdiv (-d0) minuteNs :=
          Int.tdiv_nonneg (by omega) (by norm_num [minuteNs])
        have h1 : Int.tdiv d0 minuteNs = -(Int.tdiv (-d0) minuteNs) := by
          rw [← Int.neg_tdiv, neg_neg]
        have : Int.tdiv d0 minuteNs ≤ 0 := by
          rw [h1]
          exact neg_nonpos.mpr h2
        omega
      have htd : Int.tdiv d0 minuteNs = d0 / minuteNs :=
        Int.tdiv_eq_ediv hd0nn (by norm_num [minuteNs])
      set q : Int := d0 / minuteNs with hqdef
      have hqnn : 0 ≤ q := by omega
      have hrepr : intToDigits (Int.tdiv d0 minuteNs) = natToDigits q.toNat := by
        rw [intToDigits, if_neg (by omega), htd]
      have hqle : q ≤ i64Max := le_trans (Int.ediv_le_self minuteNs hd0nn) hhi
      rw [hrepr, @parse_digits_unit q.toNat 'm' minuteNs (by decide)
        (by omega) (by rw [Int.toNat_of_nonneg hqnn]; exact hqle)] at h
      have hqmul_le : q * minuteNs ≤ d0 := Int.ediv_mul_le d0 (by norm_num [minuteNs])
      have hqmul_pos : 0 < q * minuteNs := by
        have : (0 : Int) < minuteNs := by norm_num [minuteNs]
        rw [htd] at hq1
        positivity
      have hwrap : int64wrap ((q.toNat : Int) * minuteNs) = q * minuteNs := by
        rw [Int.toNat_of_nonneg hqnn]
        exact int64wrap_eq_self (le_of_lt hqmul_pos) (le_trans hqmul_le hhi)
      rw [hwrap] at h
      obtain rfl : q * minuteNs = d := by injection h
      exact ⟨hqmul_pos, le_trans hqmul_le hhi, ⟨q, mul_comm q minuteNs⟩⟩

/-- The duration grammar exactly as the specification words it: an unsigned
non-zero integer immediately followed by exactly one unit letter. -/
def grammarOK (s : String) : Prop :=
  ∃ ds u, s.data = ds ++ [u] ∧ ds ≠ [] ∧ ds.all isDigitChar = true ∧
    (u = 'm' ∨ u = 'h' ∨ u = 'd' ∨ u = 'w') ∧ digitsToNat ds ≠ 0

theorem matchDuration_some {cs ds : List Char} {u : Char}
    (h : matchDuration cs = some (ds, u)) :
    cs = ds ++ [u] ∧ ds ≠ [] ∧ ds.all isDigitChar = true ∧ isUnitChar u = true := by
  unfold matchDuration at h
  cases hl : cs.getLast? with
  | none => rw [hl] at h; exact absurd h (by simp)
  | some v =>
    rw [hl] at h
    have h2 : (if (isUnitChar v && !cs.dropLast.isEmpty && cs.dropLast.all isDigitChar) = true
        then some (cs.dropLast, v) else none) = some (ds, u) := h
    split_ifs at h2 with hcond
    have hpair : (cs.dropLast, v) = (ds, u) := by injection h2
    obtain ⟨hds, hu⟩ : cs.dropLast = ds ∧ v = u := Prod.mk.injEq .. ▸ hpair
    have hne : cs ≠ [] := by
      intro hnil
      rw [hnil] at hl
      exact Option.noConfusion hl
    have hlastv : cs.getLast hne = v := by
      have hgl := List.getLast?_eq_getLast cs hne
      rw [hl] at hgl
      exact (Option.some.injEq .. ▸ hgl).symm
    have hsplit : cs.dropLast ++ [cs.getLast hne] = cs := List.dropLast_append_getLast hne
    simp only [Bool.and_eq_true] at hcond
    obtain ⟨⟨hunit, hnemp⟩, hall⟩ := hcond
    refine ⟨?_, ?_, hds ▸ hall, hu ▸ hunit⟩
    · rw [← hds, ← hu, ← hlastv]
      exact hsplit.symm
    · rw [← hds]
      intro hnil
      rw [hnil] at hnemp
      simp at hnemp

/-- Inversion: a successful `Parse` means the input fit the spec grammar. -/
theorem parse_ok_grammar {s : String} {d : Int} (h : Parse s = .ok d) : grammarOK s := by
  unfold Parse at h
  split_ifs at h with hempty
  cases hm : matchDuration s.data with
  | none => rw [hm] at h; exact absurd h (by simp)
  | some du =>
    obtain ⟨ds, u⟩ := du
    rw [hm] at h
    obtain ⟨hdata, hne, hall, hunit⟩ := matchDuration_some hm
    cases ha : atoi ds with
    | error e => simp [ha] at h
    | ok value =>
      simp only [ha] at h
      split_ifs at h with hpos
      have hval : value = (digitsToNat ds : Int) := by
        unfold atoi at ha
        split_ifs at ha with hrange
        exact ((Except.ok.injEq .. ▸ ha).symm : value = _)
      have hnz : digitsToNat ds ≠ 0 := by
        intro h0
        rw [hval, h0] at hpos
        exact hpos (by norm_num)
      have hu4 : u = 'm' ∨ u = 'h' ∨ u = 'd' ∨ u = 'w' := by
        revert hunit
        unfold isUnitChar
        simp only [Bool.or_eq_true, beq_iff_eq]
        tauto
      exact ⟨ds, u, hdata, hne, hall, hu4, hnz⟩

/-- C4: for every duration d that Format can produce as output — i.e. every d in
the range of format, read back through the parser from the string Format emits
for some int64 duration — parsing the formatted string gives back exactly d:
Parse (Format d) = .ok d. -/
theorem c4_format_parse_roundtrip (d0 d : Int) (hhi : d0 ≤ i64Max)
    (h : Parse (Format d0) = .ok d) : Parse (Format d) = .ok d := by
  obtain ⟨h1, h2, h3⟩ := parse_format_inv hhi h
  exact format_parse_of_minute_dvd h1 h2 h3

/-- Witness for C4 at the concrete duration 1 week (604800000000000 ns). -/
theorem c4_format_parse_roundtrip_witness :
    Parse (Format 604800000000000) = .ok 604800000000000 :=
  c4_format_parse_roundtrip 604800000000000 604800000000000 (by decide) (by decide)

/-- C5 (amended): for every integer n ≥ 1 and unit letter u whose multiplier is
mult, provided the exact product n·mult still fits in int64, Parse of the decimal
representation of n followed by u succeeds and returns exactly n·mult; beyond
int64 the code deviates from exact integer arithmetic (see the counterexample). -/
theorem c5_parse_integer_unit (n : Nat) (u : Char) (mult : Int)
    (hu : unitMultipliers u = some mult) (hn : 1 ≤ n)
    (hbound : (n : Int) * mult ≤ i64Max) :
    Parse (String.mk (natToDigits n ++ [u])) = .ok ((n : Int) * mult) := by
  have hm : (60000000000 : Int) ≤ mult := mult_pos hu
  have h0n : (0 : Int) ≤ (n : Int) := by positivity
  have hnle : (n : Int) ≤ i64Max := by
    have h1 : (n : Int) * 1 ≤ (n : Int) * mult := by
      apply mul_le_mul_of_nonneg_left _ h0n
      omega
    rw [mul_one] at h1
    exact le_trans h1 hbound
  rw [parse_digits_unit hu hn hnle,
    int64wrap_eq_self (mul_nonneg h0n (by omega)) hbound]

/-- Witness for C5 at n = 10, u = m: ten minutes, 600000000000 ns. -/
theorem c5_parse_integer_unit_witness :
    Parse (String.mk (natToDigits 10 ++ ['m'])) = .ok ((10 : Int) * minuteNs) :=
  c5_parse_integer_unit 10 'm' minuteNs (by decide) (by decide) (by decide)

/-- Counterexample to C5 as stated for every n ≥ 1: at n = 2^63 - 1 with unit m
the product overflows int64 and Parse does not return the exact product, and at
n = 2^63 the Atoi stage fails so Parse does not succeed at all. -/
theorem c5_counterexample :
    Parse "9223372036854775807m" ≠ .ok ((9223372036854775807 : Int) * 60000000000) ∧
    Parse "9223372036854775808m" = .error "invalid duration value: value out of range" := by
  constructor
  · decide
  · decide

/-- C6: Parse rejects every input deviating from the grammar (an unsigned
non-zero integer immediately followed by one unit letter from mhdw), and in
particular the listed deviations: compound expressions, bare numbers,
fractional values, zero values, the empty string, and wrong-case unit letters. -/
theorem c6_parse_rejects_deviations :
    (∀ s : String, ¬ grammarOK s → ∀ d : Int, Parse s ≠ .ok d) ∧
    Parse "1d12h" = .error "invalid duration format" ∧
    Parse "10" = .error "invalid duration format" ∧
    Parse "1.5h" = .error "invalid duration format" ∧
    Parse "0m" = .error "duration value must be positive" ∧
    Parse "" = .error "empty duration string" ∧
    Parse "10M" = .error "invalid duration format" := by
  refine ⟨?_, by decide, by decide, by decide, by decide, by decide, by decide⟩
  intro s hng d h
  exact hng (parse_ok_grammar h)

/-- Witness for C6 at the concrete bare number "10": it breaks the grammar
(its last character is not a unit letter), so Parse cannot succeed on it. -/
theorem c6_parse_rejects_deviations_witness : ∀ d : Int, Parse "10" ≠ .ok d := by
  apply c6_parse_rejects_deviations.1
  rintro ⟨ds, u, hdata, hne, hall, hunit, hnz⟩
  have hdd : ("10" : String).data = ['1', '0'] := rfl
  rw [hdd] at hdata
  have hlast := congrArg List.getLast? hdata
  rw [List.getLast?_concat] at hlast
  have hu0 : u = '0' := by
    have : some '0' = some u := by simpa using hlast
    exact (Option.some.injEq .. ▸ this).symm
  rcases hunit with h | h | h | h <;> rw [hu0] at h <;> exact absurd h (by decide)

/-! ## `internal/id` (src/unnamed/part_003) -/

/-- `id.Length`: the number of characters in a generated identifier. -/
def idLength : Nat := 12

/-- `id.Alphabet`: base62, digits then upper then lower case letters. -/
def idAlphabet : List Char :=
  "0123456789ABCDEFGHIJKLMNOPQRSTUVWXYZabcdefghijklmnopqrstuvwxyz".data

/-- `id.isBase62`. -/
def isBase62 (c : Char) : Bool :=
  (decide ('0' ≤ c) && decide (c ≤ '9')) ||
  (decide ('A' ≤ c) && decide (c ≤ 'Z')) ||
  (decide ('a' ≤ c) && decide (c ≤ 'z'))

/-- Go's `len` on a string: the number of UTF-8 encoded bytes. -/
def goLen (s : String) : Nat := s.data.foldl (fun n c => n + c.utf8Size) 0

/-- `id.IsValid`: byte length exactly `Length`, and every rune base62. -/
def IsValid (s : String) : Bool := goLen s == idLength && s.data.all isBase62

/-- Modelled from the spec: `Generator.Generate` delegates to the external
nanoid library, which the specification describes as drawing each of the
`Length` identifier characters uniformly at random from `Alphabet` using a
cryptographically secure source. The random source is modelled as a list of
draws, one per character, each reduced to an alphabet index. -/
def Generate (draws : List Nat) : String :=
  String.mk (draws.map fun i => idAlphabet.getD (i % 62) '0')

theorem idAlphabet_sound : ∀ c ∈ idAlphabet, isBase62 c = true ∧ c.utf8Size = 1 := by decide

theorem foldl_utf8_of_ascii :
    ∀ (l : List Char), (∀ c ∈ l, c.utf8Size = 1) →
      ∀ n : Nat, l.foldl (fun a c => a + c.utf8Size) n = n + l.length := by
  intro l
  induction l with
  | nil => intro _ n; simp
  | cons c t ih =>
    intro h n
    have hc : c.utf8Size = 1 := h c (by simp)
    have ht : ∀ x ∈ t, x.utf8Size = 1 := fun x hx => h x (by simp [hx])
    simp only [List.foldl_cons, hc, ih ht (n + 1), List.length_cons]
    omega

/-- C8: every identifier the allocator produces (twelve draws from the base62
alphabet) has byte length exactly 12 with all characters base62, so `IsValid`
accepts it. -/
theorem c8_generate_isValid (draws : List Nat) (h : draws.length = idLength) :
    IsValid (Generate draws) = true := by
  have hdata : (Generate draws).data = draws.map fun i => idAlphabet.getD (i % 62) '0' := rfl
  have hmem : ∀ c ∈ (Generate draws).data, c ∈ idAlphabet := by
    intro c hc
    rw [hdata] at hc
    obtain ⟨i, _, rfl⟩ := List.mem_map.mp hc
    have hlen : idAlphabet.length = 62 := by decide
    have hlt : i % 62 < idAlphabet.length := by
      rw [hlen]
      exact Nat.mod_lt i (by omega)
    rw [List.getD_eq_getElem _ _ hlt]
    exact List.getElem_mem hlt
  have hsz : ∀ c ∈ (Generate draws).data, c.utf8Size = 1 :=
    fun c hc => (idAlphabet_sound c (hmem c hc)).2
  have hlen12 : (Generate draws).data.length = 12 := by
    rw [hdata, List.length_map, h]
    rfl
  unfold IsValid
  have hgo : goLen (Generate draws) = 12 := by
    unfold goLen
    rw [foldl_utf8_of_ascii _ hsz 0, hlen12]
  rw [hgo]
  have hall : (Generate draws).data.all isBase62 = true := by
    rw [List.all_eq_true]
    exact fun c hc => (idAlphabet_sound c (hmem c hc)).1
  rw [hall]
  rfl

/-- Witness for C8 at twelve concrete draws. -/
theorem c8_generate_isValid_witness :
    IsValid (Generate [0, 1, 2, 3, 4, 5, 6, 7, 8, 9, 10, 61]) = true :=
  c8_generate_isValid [0, 1, 2, 3, 4, 5, 6, 7, 8, 9, 10, 61] (by decide)

/-! ## `internal/storage` (postgres.go, migrations, part_001)

Timestamps are nanosecond counts on one global clock. A snippet row carries
the four columns of the `snippets` table.
-/

/-- A row of the `snippets` table / the `storage.Snippet` struct. -/
structure Entry where
  id : String
  content : List Nat
  createdAt : Int
  expiresAt : Int
deriving DecidableEq

/-- Store-level error classes distinguished by the spec taxonomy. The Go
handler never inspects which one occurred. -/
inductive StoreErr
  | duplicateID
  | ioFailure
deriving DecidableEq

/-- The query of `PostgresRepository.Get`: the first row with this id that is
still live (`expires_at > NOW()`), evaluated against a single `now`. -/
def storeGet (table : List Entry) (now : Int) (idStr : String) : Option Entry :=
  table.find? fun e => e.id == idStr && decide (now < e.expiresAt)

/-- The insert of `PostgresRepository.Create`: fails on a primary-key conflict,
otherwise appends a row whose `created_at` is the store clock `tInsert` and
whose `expires_at` is the caller-supplied value, returning the stored snippet. -/
def storeCreate (table : List Entry) (tInsert : Int) (idStr : String)
    (content : List Nat) (expiresAt : Int) : Except StoreErr (Entry × List Entry) :=
  if table.any fun e => e.id == idStr then .error .duplicateID
  else
    let e : Entry := ⟨idStr, content, tInsert, expiresAt⟩
    .ok (e, table ++ [e])

/-- `DeleteExpired`: removes every row with `expires_at <= NOW()` and reports
how many went. -/
def storeDeleteExpired (table : List Entry) (now : Int) : Int × List Entry :=
  ((table.filter fun e => decide (e.expiresAt ≤ now)).length,
    table.filter fun e => decide (now < e.expiresAt))

/-! ## `internal/api` handlers (part_002) and error responses (cleanup.go part)

An externally observable HTTP outcome: either one of the JSON error responses
written by `writeError` (status, error code, message) or one of the two
success shapes.
-/

/-- Externally observable response of a handler. -/
inductive Outcome
  | errorResp (status : Nat) (code : String) (message : String)
  | created (id : String) (url : String) (expiresAt : Int)
  | raw (content : List Nat)
deriving DecidableEq

/-- `invalidID`: 400 INVALID_ID. -/
def invalidIDResp : Outcome := .errorResp 400 "INVALID_ID" "invalid snippet ID format"

/-- `notFound`: 404 NOT_FOUND. -/
def notFoundResp : Outcome := .errorResp 404 "NOT_FOUND" "snippet not found or expired"

/-- `internalError`: 500 INTERNAL_ERROR. -/
def internalErrorResp : Outcome := .errorResp 500 "INTERNAL_ERROR" "an internal error occurred"

/-- `payloadTooLarge`: 413 PAYLOAD_TOO_LARGE. -/
def payloadTooLargeResp : Outcome :=
  .errorResp 413 "PAYLOAD_TOO_LARGE" "content exceeds maximum size"

/-- `emptyContent`: 400 EMPTY_CONTENT. -/
def emptyContentResp : Outcome := .errorResp 400 "EMPTY_CONTENT" "content cannot be empty"

/-- `invalidExpiry`: 400 INVALID_EXPIRY carrying the parse/validate message. -/
def invalidExpiryResp (msg : String) : Outcome := .errorResp 400 "INVALID_EXPIRY" msg

/-- `Server.handleGet`: shape-validate the identifier, then fetch; a repo error
is a 500, an absent row a 404, a present row the raw content. -/
def handleGet (repo : String → Except String (Option Entry)) (idStr : String) : Outcome :=
  if !IsValid idStr then invalidIDResp
  else
    match repo idStr with
    | .error _ => internalErrorResp
    | .ok none => notFoundResp
    | .ok (some e) => .raw e.content

/-- The production repository read: `storeGet` over a table at one instant,
which never reports a connection error. -/
def postgresGet (table : List Entry) (now : Int) : String → Except String (Option Entry) :=
  fun idStr => .ok (storeGet table now idStr)

/-- The configuration fields `handleCreate` consults. -/
structure CreateCfg where
  maxContentSize : Nat
  defaultExpiry : Int
  minExpiry : Int
  maxExpiry : Int
  baseURL : String

/-- Write-path effects in the order the handler performs them: one identifier
generation, one store create call. -/
inductive WriteEvent
  | genID
  | createCall (id : String)
deriving DecidableEq

/-- `Server.handleCreate`: expiry resolution from the query parameter (the
configured default when absent), bounded body read (`io.LimitReader` capped at
max+1 bytes), oversize check, empty check, one identifier generation, one store
create at `expiresAt = now + duration`. Returns the observable outcome with the
ordered allocation/store effects. -/
def handleCreate (cfg : CreateCfg) (expiryParam : Option String) (body : List Nat)
    (now : Int) (genResult : Except String String)
    (createResult : String → Int → Except StoreErr Entry) : Outcome × List WriteEvent :=
  let expiryRes : Except String Int :=
    match expiryParam with
    | none => .ok cfg.defaultExpiry
    | some s =>
      match Parse s with
      | .error e => .error e
      | .ok d =>
        match Validate d cfg.minExpiry cfg.maxExpiry with
        | .error e => .error e
        | .ok _ => .ok d
  match expiryRes with
  | .error e => (invalidExpiryResp e, [])
  | .ok dur =>
    let content := body.take (cfg.maxContentSize + 1)
    if content.length > cfg.maxContentSize then (payloadTooLargeResp, [])
    else if content.length = 0 then (emptyContentResp, [])
    else
      match genResult with
      | .error _ => (internalErrorResp, [.genID])
      | .ok snippetID =>
        match createResult snippetID (now + dur) with
        | .error _ => (internalErrorResp, [.genID, .createCall snippetID])
        | .ok snip =>
          (.created snip.id (cfg.baseURL ++ "/" ++ snip.id) snip.expiresAt,
            [.genID, .createCall snippetID])

/-- The server configuration defaults of the repository (1 MiB, 72h default,
10m minimum, 720h maximum expiry). -/
def cfgEx : CreateCfg :=
  ⟨1048576, 259200000000000, 600000000000, 2592000000000000, "http://localhost:8080"⟩

/-- Counterexample to C1: on the empty store, a malformed identifier yields the
400 INVALID_ID outcome while a well-formed never-created identifier yields the
404 NOT_FOUND outcome, so the read-path negatives are distinguishable. -/
theorem c1_counterexample :
    handleGet (postgresGet [] 0) "short" = invalidIDResp ∧
    handleGet (postgresGet [] 0) "aaaaaaaaaaaa" = notFoundResp ∧
    handleGet (postgresGet [] 0) "short" ≠ handleGet (postgresGet [] 0) "aaaaaaaaaaaa" := by
  refine ⟨by decide, by decide, by decide⟩

/-- C1 (amended): never-created and expired well-formed identifiers produce the
identical 404 NOT_FOUND outcome, but a malformed identifier produces the
distinct 400 INVALID_ID outcome. -/
theorem c1_read_negatives (table : List Entry) (now : Int)
    (idMal idMiss idExp : String)
    (hmal : IsValid idMal = false)
    (hmiss : IsValid idMiss = true) (hnomiss : ∀ e ∈ table, e.id ≠ idMiss)
    (hexp : IsValid idExp = true)
    (hexpd : ∀ e ∈ table, e.id = idExp → e.expiresAt ≤ now) :
    handleGet (postgresGet table now) idMiss = notFoundResp ∧
    handleGet (postgresGet table now) idExp = notFoundResp ∧
    handleGet (postgresGet table now) idMal = invalidIDResp ∧
    invalidIDResp ≠ notFoundResp := by
  have hfindMiss : storeGet table now idMiss = none := by
    apply List.find?_eq_none.mpr
    intro e he hcontra
    rw [Bool.and_eq_true] at hcontra
    exact hnomiss e he (beq_iff_eq.mp hcontra.1)
  have hfindExp : storeGet table now idExp = none := by
    apply List.find?_eq_none.mpr
    intro e he hcontra
    rw [Bool.and_eq_true] at hcontra
    have h1 := beq_iff_eq.mp hcontra.1
    have h2 := of_decide_eq_true hcontra.2
    have h3 := hexpd e he h1
    omega
  refine ⟨?_, ?_, ?_, by decide⟩
  · simp [handleGet, postgresGet, hmiss, hfindMiss]
  · simp [handleGet, postgresGet, hexp, hfindExp]
  · simp [handleGet, hmal, invalidIDResp]

/-- Witness for C1 (amended) on a one-row table holding an expired entry. -/
theorem c1_read_negatives_witness :
    handleGet (postgresGet [⟨"bbbbbbbbbbbb", [1], 0, 5⟩] 10) "aaaaaaaaaaaa" = notFoundResp ∧
    handleGet (postgresGet [⟨"bbbbbbbbbbbb", [1], 0, 5⟩] 10) "bbbbbbbbbbbb" = notFoundResp ∧
    handleGet (postgresGet [⟨"bbbbbbbbbbbb", [1], 0, 5⟩] 10) "x" = invalidIDResp ∧
    invalidIDResp ≠ notFoundResp :=
  c1_read_negatives [⟨"bbbbbbbbbbbb", [1], 0, 5⟩] 10 "x" "aaaaaaaaaaaa" "bbbbbbbbbbbb"
    (by decide) (by decide) (by decide) (by decide) (by decide)

/-- Counterexample to C2: with a store reporting a duplicate identifier, the
create handler performs exactly one generation and one create attempt and
returns the generic 500 INTERNAL_ERROR — identical to the IO-failure response —
with no retry and no ALLOCATION_EXHAUSTED outcome. -/
theorem c2_counterexample :
    handleCreate cfgEx none [104] 0 (.ok "aaaaaaaaaaaa") (fun _ _ => .error .duplicateID) =
      (internalErrorResp, [.genID, .createCall "aaaaaaaaaaaa"]) ∧
    handleCreate cfgEx none [104] 0 (.ok "aaaaaaaaaaaa") (fun _ _ => .error .ioFailure) =
      (internalErrorResp, [.genID, .createCall "aaaaaaaaaaaa"]) := by
  refine ⟨by decide, by decide⟩

/-- C2 (amended): on any store error — duplicate identifier included — the
write path surfaces 500 INTERNAL_ERROR immediately after a single allocation
and a single create attempt; there is no retry loop and no distinct
allocation-exhausted failure. -/
theorem c2_single_attempt (cfg : CreateCfg) (body : List Nat) (now : Int)
    (idStr : String) (err : StoreErr) (f : String → Int → Except StoreErr Entry)
    (hsize : body.length ≤ cfg.maxContentSize) (hne : body ≠ [])
    (hf : f idStr (now + cfg.defaultExpiry) = .error err) :
    handleCreate cfg none body now (.ok idStr) f =
      (internalErrorResp, [.genID, .createCall idStr]) := by
  have htake : body.take (cfg.maxContentSize + 1) = body :=
    List.take_of_length_le (by omega)
  have hlen : body.length ≠ 0 := by
    intro h0
    exact hne (List.length_eq_zero.mp h0)
  simp only [handleCreate, htake]
  rw [if_neg (by omega), if_neg hlen, hf]

/-- Witness for C2 (amended) at the repository defaults. -/
theorem c2_single_attempt_witness :
    handleCreate cfgEx none [104] 0 (.ok "cccccccccccc") (fun _ _ => .error .duplicateID) =
      (internalErrorResp, [.genID, .createCall "cccccccccccc"]) :=
  c2_single_attempt cfgEx [104] 0 "cccccccccccc" .duplicateID
    (fun _ _ => .error .duplicateID) (by decide) (by decide) rfl

/-- Counterexample to C3: publishing with expiry "10m" at handler time 0 while
the store inserts at time 5 stores expires_at = 600000000000 (handler time plus
ten minutes) and created_at = 5, so expires_at differs from created_at + Δ. -/
theorem c3_counterexample :
    handleCreate cfgEx (some "10m") [104] 0 (.ok "aaaaaaaaaaaa")
        (fun i e => (storeCreate [] 5 i [104] e).map Prod.fst) =
      (.created "aaaaaaaaaaaa" "http://localhost:8080/aaaaaaaaaaaa" 600000000000,
        [.genID, .createCall "aaaaaaaaaaaa"]) ∧
    storeCreate [] 5 "aaaaaaaaaaaa" [104] 600000000000 =
      .ok (⟨"aaaaaaaaaaaa", [104], 5, 600000000000⟩,
        [⟨"aaaaaaaaaaaa", [104], 5, 600000000000⟩]) ∧
    (600000000000 : Int) ≠ 5 + 600000000000 := by
  refine ⟨by decide, by decide, by decide⟩

/-- C3 (amended): the stored expires_at equals the handler clock reading plus
the requested duration; created_at is the store clock at insertion, so
expires_at = created_at + Δ holds exactly when the two clock readings agree. -/
theorem c3_expiresAt_from_handler_clock (cfg : CreateCfg) (table : List Entry)
    (t1 t2 : Int) (idStr : String) (body : List Nat)
    (hsize : body.length ≤ cfg.maxContentSize) (hne : body ≠ [])
    (hnodup : (table.any fun e => e.id == idStr) = false) :
    storeCreate table t2 idStr body (t1 + cfg.defaultExpiry) =
      .ok (⟨idStr, body, t2, t1 + cfg.defaultExpiry⟩,
        table ++ [⟨idStr, body, t2, t1 + cfg.defaultExpiry⟩]) ∧
    handleCreate cfg none body t1 (.ok idStr)
        (fun i e => (storeCreate table t2 i body e).map Prod.fst) =
      (.created idStr (cfg.baseURL ++ "/" ++ idStr) (t1 + cfg.defaultExpiry),
        [.genID, .createCall idStr]) ∧
    ((t1 + cfg.defaultExpiry = t2 + cfg.defaultExpiry) ↔ t1 = t2) := by
  have hstore : storeCreate table t2 idStr body (t1 + cfg.defaultExpiry) =
      .ok (⟨idStr, body, t2, t1 + cfg.defaultExpiry⟩,
        table ++ [⟨idStr, body, t2, t1 + cfg.defaultExpiry⟩]) := by
    unfold storeCreate
    rw [if_neg (by simp [hnodup])]
  have htake : body.take (cfg.maxContentSize + 1) = body :=
    List.take_of_length_le (by omega)
  have hlen : body.length ≠ 0 := by
    intro h0
    exact hne (List.length_eq_zero.mp h0)
  refine ⟨hstore, ?_, by omega⟩
  simp only [handleCreate, htake]
  rw [if_neg (by omega), if_neg hlen, hstore]
  rfl

/-- Witness for C3 (amended) with handler clock 0 and store clock 5. -/
theorem c3_expiresAt_from_handler_clock_witness :
    storeCreate [] 5 "dddddddddddd" [104] (0 + cfgEx.defaultExpiry) =
      .ok (⟨"dddddddddddd", [104], 5, 0 + cfgEx.defaultExpiry⟩,
        [] ++ [⟨"dddddddddddd", [104], 5, 0 + cfgEx.defaultExpiry⟩]) ∧
    handleCreate cfgEx none [104] 0 (.ok "dddddddddddd")
        (fun i e => (storeCreate [] 5 i [104] e).map Prod.fst) =
      (.created "dddddddddddd" (cfgEx.baseURL ++ "/" ++ "dddddddddddd")
        (0 + cfgEx.defaultExpiry), [.genID, .createCall "dddddddddddd"]) ∧
    ((0 + cfgEx.defaultExpiry = 5 + cfgEx.defaultExpiry) ↔ (0 : Int) = 5) :=
  c3_expiresAt_from_handler_clock cfgEx [] 0 5 "dddddddddddd" [104]
    (by decide) (by decide) (by decide)

/-- C9: the create handler reads at most max+1 body bytes; a body of exactly
the configured maximum size passes the size check (the bound is inclusive) and
reaches identifier allocation; only strictly larger bodies are rejected with the
payload-too-large outcome; and whenever the outcome is the size or emptiness
rejection, no identifier was generated and no store call was made. -/
theorem c9_size_bounds (cfg : CreateCfg) (body : List Nat) (now : Int)
    (gen : Except String String) (f : String → Int → Except StoreErr Entry) :
    ((body.take (cfg.maxContentSize + 1)).length ≤ cfg.maxContentSize + 1) ∧
    (body.length ≤ cfg.maxContentSize →
      (handleCreate cfg none body now gen f).1 ≠ payloadTooLargeResp) ∧
    (body.length > cfg.maxContentSize →
      handleCreate cfg none body now gen f = (payloadTooLargeResp, [])) ∧
    (body.length = cfg.maxContentSize → 1 ≤ cfg.maxContentSize →
      WriteEvent.genID ∈ (handleCreate cfg none body now gen f).2) ∧
    ((handleCreate cfg none body now gen f).1 = payloadTooLargeResp ∨
        (handleCreate cfg none body now gen f).1 = emptyContentResp →
      (handleCreate cfg none body now gen f).2 = []) := by
  refine ⟨by rw [List.length_take]; exact Nat.min_le_left _ _, ?_⟩
  by_cases hbig : body.length > cfg.maxContentSize
  · have heq : handleCreate cfg none body now gen f = (payloadTooLargeResp, []) := by
      simp only [handleCreate]
      rw [if_pos (by rw [List.length_take]; omega)]
    refine ⟨fun hle => absurd hbig (by omega), fun _ => heq,
      fun hmax _ => absurd hbig (by omega), fun _ => by rw [heq]⟩
  · have htake : body.take (cfg.maxContentSize + 1) = body :=
      List.take_of_length_le (by omega)
    by_cases hz : body.length = 0
    · have heq : handleCreate cfg none body now gen f = (emptyContentResp, []) := by
        simp only [handleCreate, htake]
        rw [if_neg (by omega), if_pos hz]
      refine ⟨fun _ => by rw [heq]; decide, fun h => absurd h (by omega),
        fun hmax h1 => absurd hz (by omega), fun _ => by rw [heq]⟩
    · cases gen with
      | error e =>
        have heq : handleCreate cfg none body now (.error e) f =
            (internalErrorResp, [.genID]) := by
          simp only [handleCreate, htake]
          rw [if_neg (by omega), if_neg hz]
        refine ⟨fun _ => by rw [heq]; decide, fun h => absurd h (by omega),
          fun _ _ => by rw [heq]; simp, fun ho => ?_⟩
        rw [heq] at ho ⊢
        rcases ho with ho | ho <;> exact absurd ho (by decide)
      | ok idStr =>
        cases hf : f idStr (now + cfg.defaultExpiry) with
        | error err =>
          have heq : handleCreate cfg none body now (.ok idStr) f =
              (internalErrorResp, [.genID, .createCall idStr]) := by
            simp only [handleCreate, htake]
            rw [if_neg (by omega), if_neg hz, hf]
          refine ⟨fun _ => by rw [heq]; simp [internalErrorResp, payloadTooLargeResp],
            fun h => absurd h (by omega),
            fun _ _ => by rw [heq]; simp, fun ho => ?_⟩
          rw [heq] at ho ⊢
          rcases ho with ho | ho <;>
            simp [internalErrorResp, payloadTooLargeResp, emptyContentResp] at ho
        | ok snip =>
          have heq : handleCreate cfg none body now (.ok idStr) f =
              (.created snip.id (cfg.baseURL ++ "/" ++ snip.id) snip.expiresAt,
                [.genID, .createCall idStr]) := by
            simp only [handleCreate, htake]
            rw [if_neg (by omega), if_neg hz, hf]
          refine ⟨fun _ => by rw [heq]; simp [payloadTooLargeResp],
            fun h => absurd h (by omega),
            fun _ _ => by rw [heq]; simp, fun ho => ?_⟩
          rw [heq] at ho ⊢
          rcases ho with ho | ho <;>
            exact absurd ho (by simp [payloadTooLargeResp, emptyContentResp])

/-- Witness for C9 at a two-byte body under the repository defaults. -/
theorem c9_size_bounds_witness :
    (([104, 105].take (cfgEx.maxContentSize + 1)).length ≤ cfgEx.maxContentSize + 1) ∧
    (handleCreate cfgEx none [104, 105] 0 (.ok "eeeeeeeeeeee")
        (fun _ _ => .error .ioFailure)).1 ≠ payloadTooLargeResp := by
  have h := c9_size_bounds cfgEx [104, 105] 0 (.ok "eeeeeeeeeeee")
    (fun _ _ => .error .ioFailure)
  exact ⟨h.1, h.2.1 (by decide)⟩

/-! ## `internal/api/cleanup.go`: the cleanup worker -/

/-- One delivery the `select` in `CleanupWorker.run` can receive. -/
inductive LoopEvent
  | tick
  | stopSignal
  | ctxDone
deriving DecidableEq

/-- `CleanupWorker.cleanup`: one `DeleteExpired` call; a failure is logged and
absorbed, a successful sweep with a positive count logs a completion line. -/
def cleanupLogs (r : Except String Int) : List String :=
  match r with
  | .error e => ["failed to delete expired snippets: " ++ e]
  | .ok c => if 0 < c then ["cleanup completed"] else []

/-- Observable result of running the worker loop over a finite event prefix:
sweeps performed, log lines emitted, and whether the loop has returned (which,
through `defer close(doneCh)`, is the state of the done channel). -/
structure RunResult where
  sweeps : Nat
  logs : List String
  exited : Bool
deriving DecidableEq

/-- The `for`/`select` loop of `CleanupWorker.run` after the initial sweep:
each ticker delivery performs one sweep whose result never influences control
flow; a stop signal or context cancellation returns from the loop. The i-th
sweep observes `results i`. -/
def runFrom : List LoopEvent → (Nat → Except String Int) → Nat → RunResult
  | [], _, _ => ⟨0, [], false⟩
  | .tick :: evs, results, i =>
    let k := runFrom evs results (i + 1)
    ⟨k.sweeps + 1, cleanupLogs (results i) ++ k.logs, k.exited⟩
  | .stopSignal :: _, _, _ => ⟨0, [], true⟩
  | .ctxDone :: _, _, _ => ⟨0, [], true⟩

/-- `CleanupWorker.run`: one immediate sweep at startup, then the loop. -/
def run (evs : List LoopEvent) (results : Nat → Except String Int) : RunResult :=
  let k := runFrom evs results 1
  ⟨k.sweeps + 1, cleanupLogs (results 0) ++ k.logs, k.exited⟩

/-- Ticker deliveries before the first stop/cancellation delivery. -/
def ticksBeforeStop : List LoopEvent → Nat
  | [] => 0
  | .tick :: evs => ticksBeforeStop evs + 1
  | .stopSignal :: _ => 0
  | .ctxDone :: _ => 0

/-- Whether a stop or cancellation delivery occurs before the trace ends. -/
def loopExited : List LoopEvent → Bool
  | [] => false
  | .tick :: evs => loopExited evs
  | .stopSignal :: _ => true
  | .ctxDone :: _ => true

/-- `CleanupWorker.Stop` after closing the stop channel blocks receiving on the
done channel; the receive completes exactly when `run` has returned. -/
def stopUnblocked (evs : List LoopEvent) (results : Nat → Except String Int) : Bool :=
  (run evs results).exited

theorem runFrom_sweeps (evs : List LoopEvent) (res : Nat → Except String Int) :
    ∀ i, (runFrom evs res i).sweeps = ticksBeforeStop evs := by
  induction evs with
  | nil => intro i; rfl
  | cons ev evs ih =>
    intro i
    cases ev with
    | tick => simp [runFrom, ticksBeforeStop, ih]
    | stopSignal => rfl
    | ctxDone => rfl

theorem runFrom_exited (evs : List LoopEvent) (res : Nat → Except String Int) :
    ∀ i, (runFrom evs res i).exited = loopExited evs := by
  induction evs with
  | nil => intro i; rfl
  | cons ev evs ih =>
    intro i
    cases ev with
    | tick => simp [runFrom, loopExited, ih]
    | stopSignal => rfl
    | ctxDone => rfl

theorem loopExited_stop (evs : List LoopEvent) :
    loopExited (evs ++ [.stopSignal]) = true := by
  induction evs with
  | nil => rfl
  | cons ev evs ih =>
    cases ev with
    | tick => simpa [loopExited] using ih
    | stopSignal => rfl
    | ctxDone => rfl

/-- C7: the worker performs exactly one immediate sweep plus one per tick until
told to stop; neither the sweep count nor loop exit depends on the sweep
results (a failed sweep is absorbed, logged, and never terminates the loop);
the loop exits exactly on a stop or cancellation delivery; and after the stop
signal is delivered the loop exits, closing the done channel Stop is blocked
on. -/
theorem c7_cleanup_worker (evs : List LoopEvent)
    (res res' : Nat → Except String Int) (e : String) :
    (run evs res).sweeps = 1 + ticksBeforeStop evs ∧
    (run evs res).sweeps = (run evs res').sweeps ∧
    (run evs res).exited = (run evs res').exited ∧
    (res 0 = .error e →
      ("failed to delete expired snippets: " ++ e) ∈ (run evs res).logs) ∧
    ((run evs res).exited = true ↔ loopExited evs = true) ∧
    stopUnblocked (evs ++ [.stopSignal]) res = true := by
  refine ⟨?_, ?_, ?_, ?_, ?_, ?_⟩
  · simp [run, runFrom_sweeps]
    omega
  · simp [run, runFrom_sweeps]
  · simp [run, runFrom_exited]
  · intro herr
    simp [run, cleanupLogs, herr]
  · simp [run, runFrom_exited]
  · simp [stopUnblocked, run, runFrom_exited, loopExited_stop]

/-- Witness for C7 on the trace of one tick with a failing sweep. -/
theorem c7_cleanup_worker_witness :
    (run [LoopEvent.tick] (fun _ => .error "boom")).sweeps = 2 ∧
    "failed to delete expired snippets: boom" ∈
      (run [LoopEvent.tick] (fun _ => .error "boom")).logs := by
  have h := c7_cleanup_worker [LoopEvent.tick] (fun _ => .error "boom")
    (fun _ => .ok 0) "boom"
  exact ⟨by rw [h.1]; rfl, h.2.2.2.1 rfl⟩

/-- A Go channel, reduced to the only state `close` needs. -/
structure GoChan where
  closed : Bool
deriving DecidableEq

/-- The Go `close` builtin: closing an already-closed channel panics, modelled
as the error case. -/
def closeChan (c : GoChan) : Except String GoChan :=
  if c.closed then .error "close of closed channel" else .ok ⟨true⟩

/-- The two channels `NewCleanupWorker` allocates, both freshly made and open. -/
structure WorkerChans where
  stopCh : GoChan
  doneCh : GoChan
deriving DecidableEq

/-- `NewCleanupWorker`: `stopCh` and `doneCh` are fresh open channels. -/
def NewCleanupWorker : WorkerChans := ⟨⟨false⟩, ⟨false⟩⟩

/-- The first statement of `CleanupWorker.Stop`: `close(w.stopCh)`. -/
def stopCloseAction (w : WorkerChans) : Except String WorkerChans :=
  (closeChan w.stopCh).map fun c => ⟨c, w.doneCh⟩

/-- C10: the first Stop closes the stop channel; a second Stop closes an
already-closed channel, which panics — Stop is not idempotent. -/
theorem c10_double_stop_panics :
    stopCloseAction NewCleanupWorker = .ok ⟨⟨true⟩, ⟨false⟩⟩ ∧
    (stopCloseAction NewCleanupWorker).bind stopCloseAction =
      .error "close of closed channel" := by
  exact ⟨rfl, rfl⟩

end Tafcha
